import Mathlib

/-!
Shallow embedding of count_code.py: a utility that walks a directory tree,
counts lines and heuristic function declarations in TypeScript/JavaScript
source files, prints a per-file report and aggregate totals.

The regex engine below models the fragment of Python re used by the script:
alternation-free patterns built from literals, greedy star/plus over
one-character classes, the word-boundary assertion and the MULTILINE
line-start anchor.  Character classes are modelled at ASCII precision
(the script is only ever applied to ASCII source text).
-/

namespace CountCode

/-- ASCII model of the Python regex word-character class: letters, digits, underscore. -/
def isWordChar (c : Char) : Bool := c.isAlphanum || c = '_'

/-- ASCII model of the Python regex whitespace class. -/
def isSpaceChar (c : Char) : Bool :=
  c = ' ' || c = '\t' || c = '\n' || c = '\r' || c = '\x0b' || c = '\x0c'

/-- The negated character class excluding a closing parenthesis. -/
def isNotRParen (c : Char) : Bool := c ≠ ')'

/-- One item of an alternation-free regular expression, as used by the
seven patterns of count_functions. -/
inductive RItem where
  | lit (c : Char)
  | star (p : Char → Bool)
  | plus (p : Char → Bool)
  | wordB
  | lineStart

/-- Is the character at index i of s a word character (false when out of range)? -/
def wordAt (s : List Char) (i : Nat) : Bool :=
  match s.get? i with
  | some c => isWordChar c
  | none => false

/-- Word-boundary test at a position, as in Python re: exactly one of the
two adjacent positions holds a word character. -/
def atWordBoundary (s : List Char) (pos : Nat) : Bool :=
  (if pos = 0 then false else wordAt s (pos - 1)) != wordAt s pos

/-- MULTILINE line-start anchor: start of the string or just after a newline. -/
def atLineStart (s : List Char) (pos : Nat) : Bool :=
  pos = 0 || s.get? (pos - 1) = some '\n'

/-- Greedy backtracking search for a quantifier: try repetition count j,
then j-1, ..., stopping at the lower bound lo; first success wins.
This is the order in which a backtracking engine explores a greedy
star (lo = 0) or plus (lo = 1). -/
def tryDown (f : Nat → Option Nat) (lo : Nat) : Nat → Option Nat
  | 0 => f 0
  | j + 1 =>
    match f (j + 1) with
    | some e => some e
    | none => if j + 1 ≤ lo then none else tryDown f lo j

/-- Backtracking matcher: given the whole subject s and a pattern,
return for each start position the end position of the first match the
backtracking search finds there, if any.  Greedy quantifiers first
consume the maximal run of their class and then give characters back
one at a time. -/
def matchFn (s : List Char) : List RItem → Nat → Option Nat
  | [] => fun pos => some pos
  | .lit c :: rest => fun pos =>
    match s.get? pos with
    | some c2 => if c2 = c then matchFn s rest (pos + 1) else none
    | none => none
  | .star p :: rest => fun pos =>
    let k := ((s.drop pos).takeWhile p).length
    let m := matchFn s rest
    tryDown (fun j => m (pos + j)) 0 k
  | .plus p :: rest => fun pos =>
    let k := ((s.drop pos).takeWhile p).length
    let m := matchFn s rest
    if k = 0 then none else tryDown (fun j => m (pos + j)) 1 k
  | .wordB :: rest => fun pos =>
    if atWordBoundary s pos then matchFn s rest pos else none
  | .lineStart :: rest => fun pos =>
    if atLineStart s pos then matchFn s rest pos else none

/-- Scanning loop of re.findall: try the pattern at each position from
left to right; on a match resume after its end (advancing at least one
position), and count the matches.  The fuel argument bounds the number
of scan steps; s.length + 1 - pos is always enough. -/
def findCountFrom (s : List Char) (items : List RItem) : Nat → Nat → Nat
  | 0, _ => 0
  | fuel + 1, pos =>
    if s.length < pos then 0
    else
      match matchFn s items pos with
      | some e =>
        1 + (if pos < e then findCountFrom s items fuel e
             else findCountFrom s items fuel (pos + 1))
      | none => findCountFrom s items fuel (pos + 1)

/-- Model of len(re.findall(pattern, content, re.MULTILINE)) for the
alternation-free patterns of count_functions (none of which has a
capturing group). -/
def findall_len (items : List RItem) (content : String) : Nat :=
  findCountFrom content.data items (content.data.length + 1) 0

/-- A word spelled as consecutive literal items. -/
def lits (w : String) : List RItem := w.data.map RItem.lit

/-- Source pattern 1: word boundary, function, spaces, name, optional spaces, open paren. -/
def pattern1 : List RItem :=
  [RItem.wordB] ++ lits "function" ++
    [RItem.plus isSpaceChar, RItem.plus isWordChar, RItem.star isSpaceChar, RItem.lit '(']

/-- Source pattern 2: const name = ( params ) arrow. -/
def pattern2 : List RItem :=
  [RItem.wordB] ++ lits "const" ++
    [RItem.plus isSpaceChar, RItem.plus isWordChar, RItem.star isSpaceChar, RItem.lit '=',
     RItem.star isSpaceChar, RItem.lit '(', RItem.star isNotRParen, RItem.lit ')',
     RItem.star isSpaceChar, RItem.lit '=', RItem.lit '>']

/-- Source pattern 3: let name = ( params ) arrow. -/
def pattern3 : List RItem :=
  [RItem.wordB] ++ lits "let" ++
    [RItem.plus isSpaceChar, RItem.plus isWordChar, RItem.star isSpaceChar, RItem.lit '=',
     RItem.star isSpaceChar, RItem.lit '(', RItem.star isNotRParen, RItem.lit ')',
     RItem.star isSpaceChar, RItem.lit '=', RItem.lit '>']

/-- Source pattern 4: async function name ( . -/
def pattern4 : List RItem :=
  [RItem.wordB] ++ lits "async" ++ [RItem.plus isSpaceChar] ++ lits "function" ++
    [RItem.plus isSpaceChar, RItem.plus isWordChar, RItem.star isSpaceChar, RItem.lit '(']

/-- Source pattern 5: name : ( params ) arrow. -/
def pattern5 : List RItem :=
  [RItem.plus isWordChar, RItem.star isSpaceChar, RItem.lit ':',
   RItem.star isSpaceChar, RItem.lit '(', RItem.star isNotRParen, RItem.lit ')',
   RItem.star isSpaceChar, RItem.lit '=', RItem.lit '>']

/-- Source pattern 6: line start, spaces, name ( params ) opening brace. -/
def pattern6 : List RItem :=
  [RItem.lineStart, RItem.star isSpaceChar, RItem.plus isWordChar, RItem.star isSpaceChar,
   RItem.lit '(', RItem.star isNotRParen, RItem.lit ')', RItem.star isSpaceChar,
   RItem.lit '\x7b']

/-- Source pattern 7: line start, spaces, async, name ( params ) opening brace. -/
def pattern7 : List RItem :=
  [RItem.lineStart, RItem.star isSpaceChar] ++ lits "async" ++
    [RItem.plus isSpaceChar, RItem.plus isWordChar, RItem.star isSpaceChar,
     RItem.lit '(', RItem.star isNotRParen, RItem.lit ')', RItem.star isSpaceChar,
     RItem.lit '\x7b']

/-- The fixed ordered pattern list of count_functions. -/
def patterns : List (List RItem) :=
  [pattern1, pattern2, pattern3, pattern4, pattern5, pattern6, pattern7]

/-- count_functions from count_code.py: fold over the pattern list,
adding the number of matches of each pattern in the whole content. -/
def count_functions (content : String) : Nat :=
  patterns.foldl (fun count pat => count + findall_len pat content) 0

example : count_functions "function foo() \x7b" = 1 := by decide
example : count_functions "async function foo() \x7b\x7d" = 2 := by decide
example : count_functions "const add = (a, b) => a + b" = 1 := by decide

/-- The line-break characters recognised by Python str.splitlines. -/
def isLineBreak (c : Char) : Bool :=
  c = '\n' || c = '\r' || c = '\x0b' || c = '\x0c' || c = '\x1c' ||
  c = '\x1d' || c = '\x1e' || c = '\x85' || c = '\u2028' || c = '\u2029'

/-- Worker for splitlines: cur is the reversed current line; a carriage
return immediately followed by a newline counts as a single break; a
trailing break does not open a final empty line. -/
def splitlinesGo (cur : List Char) : List Char → List (List Char)
  | [] => [cur.reverse]
  | [c] => if isLineBreak c then [cur.reverse] else [(c :: cur).reverse]
  | c :: c2 :: rest =>
    if c = '\r' && c2 = '\n' then
      cur.reverse :: (match rest with
        | [] => []
        | c3 :: r3 => splitlinesGo [] (c3 :: r3))
    else if isLineBreak c then
      cur.reverse :: splitlinesGo [] (c2 :: rest)
    else splitlinesGo (c :: cur) (c2 :: rest)

/-- Model of Python str.splitlines on the character list of the content. -/
def splitlines (s : List Char) : List (List Char) :=
  match s with
  | [] => []
  | c :: rest => splitlinesGo [] (c :: rest)

/-- The expression at line 42 of count_code.py: len(content.splitlines()). -/
def reported_lines (content : String) : Nat :=
  (splitlines content.data).length

/-!
Filesystem model for analyze_project.  os.walk presents every visited
directory through separate lists of file names and subdirectory names,
in listing order, so a directory is modelled as those two lists.  A
file carries the outcome of opening and reading it: Except.ok with the
decoded text, or Except.error with the message of the raised exception.
-/

mutual
inductive FSDir where
  | node (files : List (String × Except String String)) (dirs : FSDirList)
inductive FSDirList where
  | nil
  | cons (name : String) (d : FSDir) (rest : FSDirList)
end

/-- The run state of analyze_project: the lines printed so far (modelling
standard output) and the three counters of lines 25-27. -/
structure ScanState where
  output : List String
  total_lines : Nat
  total_functions : Nat
  file_count : Nat
deriving DecidableEq, Repr

/-- The initial state of a run. -/
def initState : ScanState :=
  { output := [], total_lines := 0, total_functions := 0, file_count := 0 }

/-- The recognised source-file extensions (line 29). -/
def extensions : List String := [".ts", ".tsx", ".js", ".jsx"]

/-- The excluded directory names (line 30). -/
def exclude_dirs : List String := ["node_modules", ".next", "dist", "build", ".git"]

/-- Python str.endswith with a tuple of suffixes: some listed suffix is a
suffix of the name. -/
def endsWithAny (name : String) (suffixes : List String) : Bool :=
  suffixes.any (fun suf => List.isSuffixOf suf.data name.data)

/-- The os.path join operation as used by the walk, rendered with a forward slash. -/
def joinPath (a b : String) : String := a ++ "/" ++ b

/-- Absolute path of the currently visited directory: the root itself at
the top of the walk, else root joined with the relative directory. -/
def dirpathOf (root : String) (relDir : Option String) : String :=
  match relDir with
  | none => root
  | some d => joinPath root d

/-- os.path.relpath(filepath, root_dir) for a file visited by the walk
(line 50): the path of the file relative to the scan root. -/
def relpathOf (relDir : Option String) (name : String) : String :=
  match relDir with
  | none => name
  | some d => joinPath d name

/-- Relative directory of a subdirectory of the current directory. -/
def childRel (relDir : Option String) (dn : String) : String :=
  match relDir with
  | none => dn
  | some d => joinPath d dn

/-- The per-file report line printed at line 51 (a Python f-string
concatenates its fragments with str() of each interpolation). -/
def fileLine (rel_path : String) (lines functions : Nat) : String :=
  rel_path ++ ": " ++ toString lines ++ " satır, " ++ toString functions ++ " fonksiyon"

/-- The diagnostic line printed at line 54 for a file that failed to open
or read. -/
def errLine (filepath message : String) : String :=
  "Hata (" ++ filepath ++ "): " ++ message

/-- Lines 36-54: handle one file name of the currently visited directory.
A name not ending in a recognised extension is skipped without being
opened; a readable file updates the three counters and prints its report
line; a failing open or read prints one diagnostic and changes nothing
else. -/
def processFile (root : String) (relDir : Option String) (st : ScanState)
    (f : String × Except String String) : ScanState :=
  if endsWithAny f.1 extensions then
    match f.2 with
    | Except.ok content =>
      let lines := reported_lines content
      let functions := count_functions content
      { output := st.output ++ [fileLine (relpathOf relDir f.1) lines functions]
        total_lines := st.total_lines + lines
        total_functions := st.total_functions + functions
        file_count := st.file_count + 1 }
    | Except.error e =>
      { st with output := st.output ++ [errLine (joinPath (dirpathOf root relDir) f.1) e] }
  else st

/-- The for-loop over the filenames of one directory (lines 36-54). -/
def walkFiles (root : String) (relDir : Option String) (st : ScanState) :
    List (String × Except String String) → ScanState
  | [] => st
  | f :: fs => walkFiles root relDir (processFile root relDir st f) fs

mutual
/-- One os.walk step at a directory (lines 32-54): process the files of
the directory, then descend into its subdirectories in order, after the
pruning of line 34. -/
def walkDir (root : String) (relDir : Option String) (st : ScanState) : FSDir → ScanState
  | .node files dirs => walkDirs root relDir (walkFiles root relDir st files) dirs

/-- Descent into the subdirectories of a directory; a name in the
exclusion set was removed from dirnames at line 34, so its whole subtree
is never visited. -/
def walkDirs (root : String) (relDir : Option String) (st : ScanState) : FSDirList → ScanState
  | .nil => st
  | .cons dn sub rest =>
    if dn ∈ exclude_dirs then walkDirs root relDir st rest
    else walkDirs root relDir (walkDir root (some (childRel relDir dn)) st sub) rest
end

/-- analyze_project from count_code.py over a modelled directory tree.
The source returns the counter triple and prints as a side effect; the
model returns the final state, whose output field is everything printed. -/
def analyze_project (root : String) (t : FSDir) : ScanState :=
  walkDir root none initState t

/-- The hardcoded scan root of the main block (line 59). -/
def main_root : String := "c:\\Users\\Canberk\\Desktop\\Projelerim\\StickyNoteApp"

/-- The separator line of the summary: 60 equals signs. -/
def sepLine : String := String.mk (List.replicate 60 '=')

/-- The summary block printed at lines 64-70 after the scan. -/
def summaryBlock (res : ScanState) : List String :=
  ["\n" ++ sepLine, "ÖZET", sepLine,
   "Toplam Dosya Sayısı: " ++ toString res.file_count,
   "Toplam Kod Satırı: " ++ toString res.total_lines,
   "Toplam Fonksiyon Sayısı: " ++ toString res.total_functions,
   sepLine]

/-- Everything the main block prints for a modelled tree at the hardcoded
root: the banner, the per-file scan output, then the summary block. -/
def mainOutput (t : FSDir) : List String :=
  "Proje analiz ediliyor...\n" :: (analyze_project main_root t).output
    ++ summaryBlock (analyze_project main_root t)

/-!
Characterisation of the walk: the state after any stretch of the scan is
the starting state extended by a contribution that depends only on the
scanned entries.  Delta records that contribution: printed lines, the
three counter increments, and the (relative path, line count, function
count) records of the successfully processed files.
-/

structure Delta where
  out : List String
  lines : Nat
  funs : Nat
  cnt : Nat
  recs : List (String × Nat × Nat)

/-- The contribution of scanning nothing. -/
def emptyDelta : Delta := ⟨[], 0, 0, 0, []⟩

/-- Contributions of consecutive stretches of the scan combine. -/
def appendDelta (a b : Delta) : Delta :=
  ⟨a.out ++ b.out, a.lines + b.lines, a.funs + b.funs, a.cnt + b.cnt, a.recs ++ b.recs⟩

/-- Extend a state by a contribution. -/
def applyDelta (st : ScanState) (d : Delta) : ScanState :=
  { output := st.output ++ d.out
    total_lines := st.total_lines + d.lines
    total_functions := st.total_functions + d.funs
    file_count := st.file_count + d.cnt }

/-- The contribution of one file name of a visited directory. -/
def fileDelta (root : String) (relDir : Option String)
    (f : String × Except String String) : Delta :=
  if endsWithAny f.1 extensions then
    match f.2 with
    | Except.ok content =>
      ⟨[fileLine (relpathOf relDir f.1) (reported_lines content) (count_functions content)],
       reported_lines content, count_functions content, 1,
       [(relpathOf relDir f.1, reported_lines content, count_functions content)]⟩
    | Except.error e => ⟨[errLine (joinPath (dirpathOf root relDir) f.1) e], 0, 0, 0, []⟩
  else emptyDelta

/-- The contribution of the file list of a visited directory. -/
def filesDelta (root : String) (relDir : Option String) :
    List (String × Except String String) → Delta
  | [] => emptyDelta
  | f :: fs => appendDelta (fileDelta root relDir f) (filesDelta root relDir fs)

mutual
/-- The contribution of a whole directory subtree. -/
def dirDelta (root : String) (relDir : Option String) : FSDir → Delta
  | .node files dirs =>
    appendDelta (filesDelta root relDir files) (dirsDelta root relDir dirs)

/-- The contribution of a list of subdirectories, excluded names skipped. -/
def dirsDelta (root : String) (relDir : Option String) : FSDirList → Delta
  | .nil => emptyDelta
  | .cons dn sub rest =>
    appendDelta
      (if dn ∈ exclude_dirs then emptyDelta
       else dirDelta root (some (childRel relDir dn)) sub)
      (dirsDelta root relDir rest)
end

theorem applyDelta_empty (st : ScanState) : applyDelta st emptyDelta = st := by
  simp [applyDelta, emptyDelta]

theorem applyDelta_append (st : ScanState) (a b : Delta) :
    applyDelta st (appendDelta a b) = applyDelta (applyDelta st a) b := by
  simp [applyDelta, appendDelta, Nat.add_assoc]

theorem processFile_delta (root : String) (relDir : Option String) (st : ScanState)
    (f : String × Except String String) :
    processFile root relDir st f = applyDelta st (fileDelta root relDir f) := by
  rcases f with ⟨name, c⟩
  by_cases h : endsWithAny name extensions
  · cases c <;> simp [processFile, fileDelta, applyDelta, h]
  · simp [processFile, fileDelta, applyDelta, emptyDelta, h]

theorem walkFiles_delta (root : String) (relDir : Option String) :
    ∀ (fs : List (String × Except String String)) (st : ScanState),
      walkFiles root relDir st fs = applyDelta st (filesDelta root relDir fs)
  | [], st => by simp [walkFiles, filesDelta, applyDelta_empty]
  | f :: fs, st => by
    rw [walkFiles, walkFiles_delta root relDir fs, processFile_delta,
      filesDelta, applyDelta_append]

mutual
theorem walkDir_delta :
    ∀ (t : FSDir) (root : String) (relDir : Option String) (st : ScanState),
      walkDir root relDir st t = applyDelta st (dirDelta root relDir t)
  | .node files dirs, root, relDir, st => by
    rw [walkDir, walkFiles_delta, walkDirs_delta dirs, dirDelta, applyDelta_append]

theorem walkDirs_delta :
    ∀ (ds : FSDirList) (root : String) (relDir : Option String) (st : ScanState),
      walkDirs root relDir st ds = applyDelta st (dirsDelta root relDir ds)
  | .nil, root, relDir, st => by simp [walkDirs, dirsDelta, applyDelta_empty]
  | .cons dn sub rest, root, relDir, st => by
    rw [walkDirs, dirsDelta, applyDelta_append]
    by_cases h : dn ∈ exclude_dirs
    · simp only [h, if_true, if_pos, applyDelta_empty]
      exact walkDirs_delta rest root relDir st
    · simp only [h, if_false, if_neg, not_false_iff]
      rw [walkDir_delta sub, walkDirs_delta rest]
end

theorem appendDelta_assoc (a b c : Delta) :
    appendDelta (appendDelta a b) c = appendDelta a (appendDelta b c) := by
  simp [appendDelta, Nat.add_assoc]

theorem appendDelta_empty_left (d : Delta) : appendDelta emptyDelta d = d := by
  simp [appendDelta, emptyDelta]

theorem appendDelta_empty_right (d : Delta) : appendDelta d emptyDelta = d := by
  simp [appendDelta, emptyDelta]

theorem filesDelta_append (root : String) (relDir : Option String)
    (l1 l2 : List (String × Except String String)) :
    filesDelta root relDir (l1 ++ l2)
      = appendDelta (filesDelta root relDir l1) (filesDelta root relDir l2) := by
  induction l1 with
  | nil => simp [filesDelta, appendDelta_empty_left]
  | cons f fs ih => simp [filesDelta, ih, appendDelta_assoc]

/-- A character other than a line break is accumulated into the current
line by the splitlines worker. -/
theorem splitlinesGo_cons_nobreak (c : Char) (cur rest : List Char)
    (h : isLineBreak c = false) :
    splitlinesGo cur (c :: rest) = splitlinesGo (c :: cur) rest := by
  have hcr : c ≠ '\r' := by
    intro e
    rw [e] at h
    exact absurd h (by decide)
  cases rest with
  | nil => rw [splitlinesGo.eq_2, if_neg (by simp [h]), splitlinesGo.eq_1]
  | cons c2 r2 =>
    cases r2 with
    | nil => rw [splitlinesGo.eq_3, if_neg (by simp [hcr]), if_neg (by simp [h])]
    | cons c3 r3 => rw [splitlinesGo.eq_4, if_neg (by simp [hcr]), if_neg (by simp [h])]

/-- A line-break character other than a carriage return ends the current
line, and the worker restarts on the (nonempty) remainder. -/
theorem splitlinesGo_break_cons (b c2 : Char) (cur r2 : List Char)
    (hb : isLineBreak b = true) (hbr : b ≠ '\r') :
    splitlinesGo cur (b :: c2 :: r2) = cur.reverse :: splitlinesGo [] (c2 :: r2) := by
  cases r2 with
  | nil => rw [splitlinesGo.eq_3, if_neg (by simp [hbr]), if_pos hb]
  | cons c3 r3 => rw [splitlinesGo.eq_4, if_neg (by simp [hbr]), if_pos hb]

/-- splitlines of a nonempty character list runs the worker on an empty
current line. -/
theorem splitlines_ne_nil (s : List Char) (h : s ≠ []) :
    splitlines s = splitlinesGo [] s := by
  cases s with
  | nil => exact absurd rfl h
  | cons c r => rfl

/-- The splitlines worker consumes one break-free line followed by a
newline, emits it, and continues on the remainder. -/
theorem splitlinesGo_line (l : List Char) :
    ∀ (cur rest : List Char), (∀ c ∈ l, isLineBreak c = false) →
      splitlinesGo cur (l ++ '\n' :: rest) = (cur.reverse ++ l) :: splitlines rest := by
  induction l with
  | nil =>
    intro cur rest _
    cases rest with
    | nil =>
      rw [List.nil_append, splitlinesGo.eq_2, if_pos (by decide)]
      simp [splitlines]
    | cons c2 r2 =>
      rw [List.nil_append, splitlinesGo_break_cons '\n' c2 cur r2 (by decide) (by decide)]
      simp [splitlines]
  | cons c l ih =>
    intro cur rest h
    have hc : isLineBreak c = false := h c (by simp)
    rw [List.cons_append, splitlinesGo_cons_nobreak c _ _ hc,
      ih (c :: cur) rest (fun x hx => h x (by simp [hx]))]
    simp

/-- A contribution is coherent when its counters are the column sums of
its per-file records and each record's rendered report line is printed,
in order. -/
def Coherent (d : Delta) : Prop :=
  d.lines = (d.recs.map (fun r => r.2.1)).sum ∧
  d.funs = (d.recs.map (fun r => r.2.2)).sum ∧
  d.cnt = d.recs.length ∧
  List.Sublist (d.recs.map (fun r => fileLine r.1 r.2.1 r.2.2)) d.out

theorem coherent_empty : Coherent emptyDelta :=
  ⟨rfl, rfl, rfl, by simp [emptyDelta]⟩

theorem coherent_append (a b : Delta) (ha : Coherent a) (hb : Coherent b) :
    Coherent (appendDelta a b) := by
  obtain ⟨a1, a2, a3, a4⟩ := ha
  obtain ⟨b1, b2, b3, b4⟩ := hb
  refine ⟨?_, ?_, ?_, ?_⟩
  · simp [appendDelta, a1, b1]
  · simp [appendDelta, a2, b2]
  · simp [appendDelta, a3, b3]
  · simpa [appendDelta] using List.Sublist.append a4 b4

theorem coherent_file (root : String) (relDir : Option String)
    (f : String × Except String String) : Coherent (fileDelta root relDir f) := by
  rcases f with ⟨name, c⟩
  by_cases h : endsWithAny name extensions
  · cases c with
    | ok content => refine ⟨?_, ?_, ?_, ?_⟩ <;> simp [fileDelta, h]
    | error e => refine ⟨?_, ?_, ?_, ?_⟩ <;> simp [fileDelta, h]
  · have : fileDelta root relDir (name, c) = emptyDelta := by simp [fileDelta, h]
    rw [this]
    exact coherent_empty

theorem coherent_files (root : String) (relDir : Option String)
    (fs : List (String × Except String String)) : Coherent (filesDelta root relDir fs) := by
  induction fs with
  | nil => exact coherent_empty
  | cons f fs ih => exact coherent_append _ _ (coherent_file root relDir f) ih

mutual
theorem coherent_dir : ∀ (t : FSDir) (root : String) (relDir : Option String),
    Coherent (dirDelta root relDir t)
  | .node files dirs, root, relDir => by
    rw [dirDelta]
    exact coherent_append _ _ (coherent_files root relDir files)
      (coherent_dirs dirs root relDir)

theorem coherent_dirs : ∀ (ds : FSDirList) (root : String) (relDir : Option String),
    Coherent (dirsDelta root relDir ds)
  | .nil, root, relDir => by
    rw [dirsDelta]
    exact coherent_empty
  | .cons dn sub rest, root, relDir => by
    rw [dirsDelta]
    refine coherent_append _ _ ?_ (coherent_dirs rest root relDir)
    by_cases h : dn ∈ exclude_dirs
    · rw [if_pos h]
      exact coherent_empty
    · rw [if_neg h]
      exact coherent_dir sub root (some (childRel relDir dn))
end

/-- Every line contributed by one directory entry is either a per-file
report line or a diagnostic line. -/
theorem fileDelta_out_form (root : String) (relDir : Option String)
    (f : String × Except String String) :
    ∀ line ∈ (fileDelta root relDir f).out,
      (∃ p n m, line = fileLine p n m) ∨ (∃ p e, line = errLine p e) := by
  rcases f with ⟨name, c⟩
  intro line hl
  by_cases h : endsWithAny name extensions
  · cases c with
    | ok content =>
      simp only [fileDelta, h, if_pos, List.mem_singleton] at hl
      exact Or.inl ⟨_, _, _, hl⟩
    | error e =>
      simp only [fileDelta, h, if_pos, List.mem_singleton] at hl
      exact Or.inr ⟨_, _, hl⟩
  · simp [fileDelta, h, emptyDelta] at hl

theorem filesDelta_out_form (root : String) (relDir : Option String)
    (fs : List (String × Except String String)) :
    ∀ line ∈ (filesDelta root relDir fs).out,
      (∃ p n m, line = fileLine p n m) ∨ (∃ p e, line = errLine p e) := by
  induction fs with
  | nil => intro line hl; simp [filesDelta, emptyDelta] at hl
  | cons f fs ih =>
    intro line hl
    rw [filesDelta] at hl
    rcases List.mem_append.1 hl with hf | hr
    · exact fileDelta_out_form root relDir f line hf
    · exact ih line hr

mutual
theorem dirDelta_out_form : ∀ (t : FSDir) (root : String) (relDir : Option String),
    ∀ line ∈ (dirDelta root relDir t).out,
      (∃ p n m, line = fileLine p n m) ∨ (∃ p e, line = errLine p e)
  | .node files dirs, root, relDir => by
    intro line hl
    rw [dirDelta] at hl
    rcases List.mem_append.1 hl with hf | hr
    · exact filesDelta_out_form root relDir files line hf
    · exact dirsDelta_out_form dirs root relDir line hr

theorem dirsDelta_out_form : ∀ (ds : FSDirList) (root : String) (relDir : Option String),
    ∀ line ∈ (dirsDelta root relDir ds).out,
      (∃ p n m, line = fileLine p n m) ∨ (∃ p e, line = errLine p e)
  | .nil, root, relDir => by
    intro line hl
    rw [dirsDelta] at hl
    simp [emptyDelta] at hl
  | .cons dn sub rest, root, relDir => by
    intro line hl
    rw [dirsDelta] at hl
    rcases List.mem_append.1 hl with hf | hr
    · by_cases h : dn ∈ exclude_dirs
      · rw [if_pos h] at hf
        simp [emptyDelta] at hf
      · rw [if_neg h] at hf
        exact dirDelta_out_form sub root (some (childRel relDir dn)) line hf
    · exact dirsDelta_out_form rest root relDir line hr
end

/-- Two strings with distinct characters at some index of their leading
fragments are distinct, whatever follows the fragments. -/
theorem append_ne_append_of_getElem (a b c d : String) (i : Nat)
    (ha : i < a.data.length) (hc : i < c.data.length)
    (h : a.data[i]? ≠ c.data[i]?) : a ++ b ≠ c ++ d := by
  intro e
  apply h
  have hd := congrArg String.data e
  rw [String.data_append, String.data_append] at hd
  calc a.data[i]?
      = (a.data ++ b.data)[i]? := (List.getElem?_append_left ha).symm
    _ = (c.data ++ d.data)[i]? := by rw [hd]
    _ = c.data[i]? := List.getElem?_append_left hc

/-- A string extending a fragment differs from any string with a distinct
character inside the fragment's length. -/
theorem append_ne_of_getElem (a b c : String) (i : Nat)
    (ha : i < a.data.length) (h : a.data[i]? ≠ c.data[i]?) : a ++ b ≠ c := by
  intro e
  apply h
  have hd := congrArg String.data e
  rw [String.data_append] at hd
  calc a.data[i]?
      = (a.data ++ b.data)[i]? := (List.getElem?_append_left ha).symm
    _ = c.data[i]? := by rw [hd]

/-- Lines 17-21 of the source as an identity: the fold over the pattern
list is the sum of the per-pattern match counts. -/
theorem count_functions_eq_sum (content : String) :
    count_functions content = (patterns.map (fun p => findall_len p content)).sum := by
  simp [count_functions, patterns, List.foldl]
  omega

end CountCode

namespace Claims
open CountCode

/-- C1: the heuristic function count of a content string equals the sum,
over the fixed ordered list of seven patterns, of the number of matches
of each pattern in the whole content, with no deduplication across
patterns.  In particular the single declaration in the content
"async function foo() \x7b\x7d" matches both the function-declaration
pattern (pattern 1) and the async-function pattern (pattern 4), and is
counted twice. -/
theorem c1_count_is_undeduplicated_sum :
    (∀ content : String,
      count_functions content = (patterns.map (fun p => findall_len p content)).sum) ∧
    findall_len pattern1 "async function foo() \x7b\x7d" = 1 ∧
    findall_len pattern4 "async function foo() \x7b\x7d" = 1 ∧
    count_functions "async function foo() \x7b\x7d" = 2 :=
  ⟨count_functions_eq_sum, by decide, by decide, by decide⟩

/-- C2: when exactly one of the seven patterns has exactly one match in
the content and every other pattern has none, count_functions returns 1. -/
theorem c2_single_match_counts_one :
    ∀ (content : String) (i : Fin patterns.length),
      findall_len (patterns.get i) content = 1 →
      (∀ j : Fin patterns.length, j ≠ i → findall_len (patterns.get j) content = 0) →
      count_functions content = 1 := by
  intro content i h1 h2
  rw [count_functions_eq_sum]
  have hmap : patterns.map (fun p => findall_len p content) =
      List.ofFn (fun j : Fin patterns.length => findall_len (patterns.get j) content) := by
    conv_lhs => rw [← List.ofFn_get patterns]
    rw [List.map_ofFn]
    rfl
  rw [hmap, List.sum_ofFn]
  have hval : ∀ j : Fin patterns.length,
      findall_len (patterns.get j) content = if j = i then 1 else 0 := by
    intro j
    by_cases hj : j = i
    · rw [hj, if_pos rfl, h1]
    · rw [if_neg hj, h2 j hj]
  calc (∑ j : Fin patterns.length, findall_len (patterns.get j) content)
      = ∑ j : Fin patterns.length, if j = i then 1 else 0 :=
        Finset.sum_congr rfl (fun j _ => hval j)
    _ = 1 := by simp

/-- Witness for C2: the content "function foo() \x7b" has exactly one
match of pattern 1 and none of the other six, and its count is 1. -/
theorem c2_single_match_counts_one_witness :
    findall_len (patterns.get ⟨0, by decide⟩) "function foo() \x7b" = 1 ∧
    count_functions "function foo() \x7b" = 1 :=
  ⟨by decide,
    c2_single_match_counts_one "function foo() \x7b" ⟨0, by decide⟩ (by decide)
      (by decide)⟩

/-- C5: a subdirectory whose name is in the exclusion set is skipped with
its entire subtree: the scan state after the descent step is the same as
if the subdirectory were absent, whatever files (of any extension) the
excluded subtree holds, so they are never visited, never printed and
never counted. -/
theorem c5_excluded_dirs_never_visited :
    ∀ (root : String) (relDir : Option String) (st : ScanState)
      (dn : String) (sub : FSDir) (rest : FSDirList),
      dn ∈ exclude_dirs →
      walkDirs root relDir st (.cons dn sub rest) = walkDirs root relDir st rest := by
  intro root relDir st dn sub rest h
  rw [walkDirs]
  simp [h]

/-- Witness for C5: a node_modules directory holding a .ts file with a
function declaration changes nothing about the scan. -/
theorem c5_excluded_dirs_never_visited_witness :
    ("node_modules" ∈ exclude_dirs) ∧
    walkDirs "r" none initState
        (.cons "node_modules" (.node [("x.ts", Except.ok "function g() \x7b")] .nil) .nil)
      = walkDirs "r" none initState .nil :=
  ⟨by decide,
    c5_excluded_dirs_never_visited "r" none initState "node_modules"
      (.node [("x.ts", Except.ok "function g() \x7b")] .nil) .nil (by decide)⟩

/-- C6: a file whose name does not end with one of the recognised
extensions is skipped entirely: processing it leaves the state untouched
whatever its content or read outcome (so it is never opened, prints no
line and adds nothing to any counter), and the file loop of a directory
is equivalent to the same loop over only the extension-matching files. -/
theorem c6_unrecognised_extension_skipped :
    (∀ (root : String) (relDir : Option String) (st : ScanState)
       (f : String × Except String String),
       endsWithAny f.1 extensions = false → processFile root relDir st f = st) ∧
    (∀ (root : String) (relDir : Option String) (st : ScanState)
       (fs : List (String × Except String String)),
       walkFiles root relDir st fs =
         walkFiles root relDir st (fs.filter (fun f => endsWithAny f.1 extensions))) := by
  constructor
  · intro root relDir st f h
    simp [processFile, h]
  · intro root relDir st fs
    induction fs generalizing st with
    | nil => rfl
    | cons f fs ih =>
      by_cases h : endsWithAny f.1 extensions
      · simp only [walkFiles, List.filter_cons, h, if_pos]
        exact ih (processFile root relDir st f)
      · have hp : processFile root relDir st f = st := by simp [processFile, h]
        simp only [walkFiles, List.filter_cons, h, Bool.false_eq_true, if_neg, hp]
        exact ih st

/-- Witness for C6: a README.md file, even one containing text matching a
pattern, leaves the scan state unchanged. -/
theorem c6_unrecognised_extension_skipped_witness :
    endsWithAny "README.md" extensions = false ∧
    processFile "r" none initState ("README.md", Except.ok "function g() \x7b") = initState :=
  ⟨by decide,
    c6_unrecognised_extension_skipped.1 "r" none initState
      ("README.md", Except.ok "function g() \x7b") (by decide)⟩

/-- C3: a candidate file whose open or read raises contributes nothing to
any of the three counters and exactly one extra printed line, which is
its diagnostic, and the scan of the remaining files and subdirectories
proceeds unchanged: the scan of a directory containing the failing file
ends with the same counters as the scan of the same directory without
it, whatever the starting state. -/
theorem c3_failing_file_contributes_nothing :
    ∀ (root : String) (relDir : Option String) (st : ScanState)
      (fs1 fs2 : List (String × Except String String)) (name e : String) (dirs : FSDirList),
      endsWithAny name extensions = true →
      (walkDir root relDir st (.node (fs1 ++ (name, Except.error e) :: fs2) dirs)).total_lines
          = (walkDir root relDir st (.node (fs1 ++ fs2) dirs)).total_lines ∧
      (walkDir root relDir st (.node (fs1 ++ (name, Except.error e) :: fs2) dirs)).total_functions
          = (walkDir root relDir st (.node (fs1 ++ fs2) dirs)).total_functions ∧
      (walkDir root relDir st (.node (fs1 ++ (name, Except.error e) :: fs2) dirs)).file_count
          = (walkDir root relDir st (.node (fs1 ++ fs2) dirs)).file_count ∧
      (walkDir root relDir st (.node (fs1 ++ (name, Except.error e) :: fs2) dirs)).output.length
          = (walkDir root relDir st (.node (fs1 ++ fs2) dirs)).output.length + 1 ∧
      errLine (joinPath (dirpathOf root relDir) name) e
          ∈ (walkDir root relDir st (.node (fs1 ++ (name, Except.error e) :: fs2) dirs)).output := by
  intro root relDir st fs1 fs2 name e dirs h
  have hbad : fileDelta root relDir (name, Except.error e)
      = ⟨[errLine (joinPath (dirpathOf root relDir) name) e], 0, 0, 0, []⟩ := by
    simp [fileDelta, h]
  rw [walkDir_delta, walkDir_delta]
  simp only [dirDelta, filesDelta_append, filesDelta, hbad, applyDelta, appendDelta,
    emptyDelta]
  refine ⟨by omega, by omega, by omega, by simp [List.length_append]; omega, ?_⟩
  simp [List.mem_append]

/-- Witness for C3: a directory with one failing candidate file between
two readable ones; the counters match the scan without it, the output
has one extra line, and the diagnostic is printed. -/
theorem c3_failing_file_contributes_nothing_witness :
    endsWithAny "bad.ts" extensions = true ∧
    ((walkDir "r" none initState
        (.node ([("a.ts", Except.ok "x")] ++ ("bad.ts", Except.error "boom")
            :: [("b.ts", Except.ok "y\nz")]) .nil)).total_lines
      = (walkDir "r" none initState
          (.node ([("a.ts", Except.ok "x")] ++ [("b.ts", Except.ok "y\nz")]) .nil)).total_lines ∧
     (walkDir "r" none initState
        (.node ([("a.ts", Except.ok "x")] ++ ("bad.ts", Except.error "boom")
            :: [("b.ts", Except.ok "y\nz")]) .nil)).total_functions
      = (walkDir "r" none initState
          (.node ([("a.ts", Except.ok "x")] ++ [("b.ts", Except.ok "y\nz")]) .nil)).total_functions ∧
     (walkDir "r" none initState
        (.node ([("a.ts", Except.ok "x")] ++ ("bad.ts", Except.error "boom")
            :: [("b.ts", Except.ok "y\nz")]) .nil)).file_count
      = (walkDir "r" none initState
          (.node ([("a.ts", Except.ok "x")] ++ [("b.ts", Except.ok "y\nz")]) .nil)).file_count ∧
     (walkDir "r" none initState
        (.node ([("a.ts", Except.ok "x")] ++ ("bad.ts", Except.error "boom")
            :: [("b.ts", Except.ok "y\nz")]) .nil)).output.length
      = (walkDir "r" none initState
          (.node ([("a.ts", Except.ok "x")] ++ [("b.ts", Except.ok "y\nz")]) .nil)).output.length + 1 ∧
     errLine (joinPath (dirpathOf "r" none) "bad.ts") "boom"
      ∈ (walkDir "r" none initState
          (.node ([("a.ts", Except.ok "x")] ++ ("bad.ts", Except.error "boom")
              :: [("b.ts", Except.ok "y\nz")]) .nil)).output) :=
  ⟨by decide,
    c3_failing_file_contributes_nothing "r" none initState
      [("a.ts", Except.ok "x")] [("b.ts", Except.ok "y\nz")] "bad.ts" "boom" .nil (by decide)⟩

/-- C7: a content made of exactly k break-free lines, each terminated by
a newline and with no trailing partial line, is reported as k lines. -/
theorem c7_newline_delimited_lines_counted_exactly :
    ∀ (ls : List (List Char)),
      (∀ l ∈ ls, ∀ c ∈ l, isLineBreak c = false) →
      reported_lines (String.mk ((ls.map (fun l => l ++ ['\n'])).flatten)) = ls.length := by
  intro ls
  induction ls with
  | nil => intro _; rfl
  | cons l ls ih =>
    intro h
    have hdata : (String.mk (((l :: ls).map (fun l => l ++ ['\n'])).flatten)).data
        = l ++ '\n' :: (ls.map (fun l => l ++ ['\n'])).flatten := by
      simp
    unfold reported_lines
    rw [hdata, splitlines_ne_nil _ (by cases l <;> simp),
      splitlinesGo_line l [] _ (h l (by simp)), List.length_cons]
    have := ih (fun x hx c hc => h x (by simp [hx]) c hc)
    simpa [reported_lines] using this

/-- Witness for C7: three newline-terminated lines, one of them empty,
are reported as 3 lines. -/
theorem c7_newline_delimited_lines_counted_exactly_witness :
    (∀ l ∈ [['a'], ([] : List Char), ['b', 'c']], ∀ c ∈ l, isLineBreak c = false) ∧
    reported_lines (String.mk (([['a'], ([] : List Char), ['b', 'c']].map
      (fun l => l ++ ['\n'])).flatten)) = 3 :=
  ⟨by decide,
    c7_newline_delimited_lines_counted_exactly [['a'], [], ['b', 'c']] (by decide)⟩

/-- C10: the empty content is reported as 0 lines, and a content with a
trailing partial line counts that line: "abc" is reported as 1 line; in
both cases this is what the per-file report line prints. -/
theorem c10_splitlines_edge_cases :
    reported_lines "" = 0 ∧ reported_lines "abc" = 1 ∧
    (analyze_project "root" (.node [("a.ts", Except.ok "")] .nil)).output
      = ["a.ts: 0 satır, 0 fonksiyon"] ∧
    (analyze_project "root" (.node [("a.ts", Except.ok "abc")] .nil)).output
      = ["a.ts: 1 satır, 0 fonksiyon"] :=
  ⟨rfl, rfl, rfl, rfl⟩

/-- Modelled from the spec: section 6 of the specification states that a
per-file line has the form relative-path, colon, N lines, M functions,
with the English words lines and functions. -/
def specFileLineEN (p : String) (n m : Nat) : String :=
  p ++ ": " ++ toString n ++ " lines, " ++ toString m ++ " functions"

/-- Modelled from the spec: section 6 of the specification states that a
diagnostic line has the form Error, then the path in parentheses, then
the message, with the English word Error. -/
def specErrLineEN (p e : String) : String :=
  "Error (" ++ p ++ "): " ++ e

/-- Counterexample to C4: the script prints its report in Turkish, not in
the English template the claim quotes.  A scan of a single one-line file
prints a line ending in the word fonksiyon, which no instantiation of
the claimed template path-colon-N-lines-M-functions can produce, since
any such instantiation ends in the letter s. -/
theorem c4_spec_format_counterexample :
    (analyze_project "root" (.node [("a.ts", Except.ok "abc")] .nil)).output
      = ["a.ts: 1 satır, 0 fonksiyon"] ∧
    ¬ (∃ p n m, "a.ts: 1 satır, 0 fonksiyon" = specFileLineEN p n m) := by
  refine ⟨rfl, ?_⟩
  rintro ⟨p, n, m, h⟩
  have hd := congrArg String.data h
  rw [specFileLineEN] at hd
  simp only [String.data_append] at hd
  have hlast := congrArg List.getLast? hd
  rw [List.getLast?_append_of_ne_nil _ (show (" functions" : String).data ≠ [] by decide),
    show (" functions" : String).data.getLast? = some 's' from by decide,
    show ("a.ts: 1 satır, 0 fonksiyon" : String).data.getLast? = some 'n' from by decide]
    at hlast
  exact absurd hlast (by decide)

/-- C4 as amended: every line the scan prints is either a per-file report
line of the form relative-path, colon, N followed by the word satır, M
followed by the word fonksiyon, or a diagnostic of the form Hata, the
path in parentheses, and the message — the shapes the code actually
prints at lines 51 and 54. -/
theorem c4_amended_output_forms :
    ∀ (root : String) (t : FSDir) (line : String),
      line ∈ (analyze_project root t).output →
      (∃ p n m, line = fileLine p n m) ∨ (∃ p e, line = errLine p e) := by
  intro root t line hl
  rw [analyze_project, walkDir_delta t root none initState] at hl
  have : line ∈ (dirDelta root none t).out := by
    simpa [applyDelta, initState] using hl
  exact dirDelta_out_form t root none line this

/-- Witness for the amended C4: the report line of a concrete scan is of
the per-file form. -/
theorem c4_amended_output_forms_witness :
    ("b.ts: 1 satır, 1 fonksiyon"
        ∈ (analyze_project "r" (.node [("b.ts", Except.ok "const f = (x) => x")] .nil)).output) ∧
    ((∃ p n m, "b.ts: 1 satır, 1 fonksiyon" = fileLine p n m) ∨
      (∃ p e, "b.ts: 1 satır, 1 fonksiyon" = errLine p e)) :=
  ⟨by decide,
    c4_amended_output_forms "r" (.node [("b.ts", Except.ok "const f = (x) => x")] .nil)
      "b.ts: 1 satır, 1 fonksiyon" (by decide)⟩

/-- C8: the final totals are the column sums of the per-file records of
the run: the file counter equals the number of records, and the line and
function totals equal the sums of the respective columns; each record's
rendered report line is printed in the output, in order. -/
theorem c8_totals_are_column_sums :
    ∀ (root : String) (t : FSDir),
      (analyze_project root t).file_count = (dirDelta root none t).recs.length ∧
      (analyze_project root t).total_lines
        = ((dirDelta root none t).recs.map (fun r => r.2.1)).sum ∧
      (analyze_project root t).total_functions
        = ((dirDelta root none t).recs.map (fun r => r.2.2)).sum ∧
      List.Sublist ((dirDelta root none t).recs.map (fun r => fileLine r.1 r.2.1 r.2.2))
        (analyze_project root t).output := by
  intro root t
  obtain ⟨h1, h2, h3, h4⟩ := coherent_dir t root none
  have hA : analyze_project root t = applyDelta initState (dirDelta root none t) :=
    walkDir_delta t root none initState
  rw [hA]
  exact ⟨by simp [applyDelta, initState, h3], by simp [applyDelta, initState, h1],
    by simp [applyDelta, initState, h2], by simpa [applyDelta, initState] using h4⟩

/-- C9: the three aggregate counters never decrease at any step of the
scan — one file, one file list, one directory subtree, one subdirectory
list — and the main block prints the scan output followed by the summary
block, in which each final counter value appears in exactly one line. -/
theorem c9_counters_monotone_summary_once :
    (∀ (root : String) (relDir : Option String) (st : ScanState)
       (f : String × Except String String),
       st.total_lines ≤ (processFile root relDir st f).total_lines ∧
       st.total_functions ≤ (processFile root relDir st f).total_functions ∧
       st.file_count ≤ (processFile root relDir st f).file_count) ∧
    (∀ (root : String) (relDir : Option String) (st : ScanState)
       (fs : List (String × Except String String)),
       st.total_lines ≤ (walkFiles root relDir st fs).total_lines ∧
       st.total_functions ≤ (walkFiles root relDir st fs).total_functions ∧
       st.file_count ≤ (walkFiles root relDir st fs).file_count) ∧
    (∀ (root : String) (relDir : Option String) (st : ScanState) (t : FSDir),
       st.total_lines ≤ (walkDir root relDir st t).total_lines ∧
       st.total_functions ≤ (walkDir root relDir st t).total_functions ∧
       st.file_count ≤ (walkDir root relDir st t).file_count) ∧
    (∀ (root : String) (relDir : Option String) (st : ScanState) (ds : FSDirList),
       st.total_lines ≤ (walkDirs root relDir st ds).total_lines ∧
       st.total_functions ≤ (walkDirs root relDir st ds).total_functions ∧
       st.file_count ≤ (walkDirs root relDir st ds).file_count) ∧
    (∀ t : FSDir, mainOutput t
      = "Proje analiz ediliyor...\n" :: (analyze_project main_root t).output
          ++ summaryBlock (analyze_project main_root t)) ∧
    (∀ res : ScanState,
      (summaryBlock res).count ("Toplam Dosya Sayısı: " ++ toString res.file_count) = 1 ∧
      (summaryBlock res).count ("Toplam Kod Satırı: " ++ toString res.total_lines) = 1 ∧
      (summaryBlock res).count ("Toplam Fonksiyon Sayısı: " ++ toString res.total_functions)
        = 1) := by
  refine ⟨?_, ?_, ?_, ?_, fun t => rfl, ?_⟩
  · intro root relDir st f
    rw [processFile_delta]
    exact ⟨Nat.le_add_right _ _, Nat.le_add_right _ _, Nat.le_add_right _ _⟩
  · intro root relDir st fs
    rw [walkFiles_delta]
    exact ⟨Nat.le_add_right _ _, Nat.le_add_right _ _, Nat.le_add_right _ _⟩
  · intro root relDir st t
    rw [walkDir_delta]
    exact ⟨Nat.le_add_right _ _, Nat.le_add_right _ _, Nat.le_add_right _ _⟩
  · intro root relDir st ds
    rw [walkDirs_delta]
    exact ⟨Nat.le_add_right _ _, Nat.le_add_right _ _, Nat.le_add_right _ _⟩
  · intro res
    have hd1 : ("Toplam Dosya Sayısı: " ++ toString res.file_count : String)
        ≠ "\n" ++ sepLine :=
      append_ne_append_of_getElem _ _ _ _ 0 (by decide) (by decide) (by decide)
    have hd2 : ("Toplam Dosya Sayısı: " ++ toString res.file_count : String) ≠ "ÖZET" :=
      append_ne_of_getElem _ _ _ 0 (by decide) (by decide)
    have hd3 : ("Toplam Dosya Sayısı: " ++ toString res.file_count : String) ≠ sepLine :=
      append_ne_of_getElem _ _ _ 0 (by decide) (by decide)
    have hd4 : ("Toplam Dosya Sayısı: " ++ toString res.file_count : String)
        ≠ "Toplam Kod Satırı: " ++ toString res.total_lines :=
      append_ne_append_of_getElem _ _ _ _ 7 (by decide) (by decide) (by decide)
    have hd5 : ("Toplam Dosya Sayısı: " ++ toString res.file_count : String)
        ≠ "Toplam Fonksiyon Sayısı: " ++ toString res.total_functions :=
      append_ne_append_of_getElem _ _ _ _ 7 (by decide) (by decide) (by decide)
    have hs1 : ("Toplam Kod Satırı: " ++ toString res.total_lines : String)
        ≠ "\n" ++ sepLine :=
      append_ne_append_of_getElem _ _ _ _ 0 (by decide) (by decide) (by decide)
    have hs2 : ("Toplam Kod Satırı: " ++ toString res.total_lines : String) ≠ "ÖZET" :=
      append_ne_of_getElem _ _ _ 0 (by decide) (by decide)
    have hs3 : ("Toplam Kod Satırı: " ++ toString res.total_lines : String) ≠ sepLine :=
      append_ne_of_getElem _ _ _ 0 (by decide) (by decide)
    have hs4 : ("Toplam Kod Satırı: " ++ toString res.total_lines : String)
        ≠ "Toplam Dosya Sayısı: " ++ toString res.file_count :=
      append_ne_append_of_getElem _ _ _ _ 7 (by decide) (by decide) (by decide)
    have hs5 : ("Toplam Kod Satırı: " ++ toString res.total_lines : String)
        ≠ "Toplam Fonksiyon Sayısı: " ++ toString res.total_functions :=
      append_ne_append_of_getElem _ _ _ _ 7 (by decide) (by decide) (by decide)
    have hf1 : ("Toplam Fonksiyon Sayısı: " ++ toString res.total_functions : String)
        ≠ "\n" ++ sepLine :=
      append_ne_append_of_getElem _ _ _ _ 0 (by decide) (by decide) (by decide)
    have hf2 : ("Toplam Fonksiyon Sayısı: " ++ toString res.total_functions : String)
        ≠ "ÖZET" :=
      append_ne_of_getElem _ _ _ 0 (by decide) (by decide)
    have hf3 : ("Toplam Fonksiyon Sayısı: " ++ toString res.total_functions : String)
        ≠ sepLine :=
      append_ne_of_getElem _ _ _ 0 (by decide) (by decide)
    have hf4 : ("Toplam Fonksiyon Sayısı: " ++ toString res.total_functions : String)
        ≠ "Toplam Dosya Sayısı: " ++ toString res.file_count :=
      append_ne_append_of_getElem _ _ _ _ 7 (by decide) (by decide) (by decide)
    have hf5 : ("Toplam Fonksiyon Sayısı: " ++ toString res.total_functions : String)
        ≠ "Toplam Kod Satırı: " ++ toString res.total_lines :=
      append_ne_append_of_getElem _ _ _ _ 7 (by decide) (by decide) (by decide)
    refine ⟨?_, ?_, ?_⟩
    · simp [summaryBlock, List.count_cons, hd1, hd2, hd3, hd4, hd5]
    · simp [summaryBlock, List.count_cons, hs1, hs2, hs3, hs4, hs5]
    · simp [summaryBlock, List.count_cons, hf1, hf2, hf3, hf4, hf5]

end Claims
